import Mathlib

/-!
Shallow embedding of the swing-trade screening/backtest program.

`backtest.py` is embedded around `SwingTradeBacktest`: the trading-rules
configuration object, the per-bar entry/exit predicates, the bar-by-bar
signal state machine `generate_signals`, and `calculate_performance`.
`screening.py` is embedded around `get_data_and_screen_advanced`.

Modelling conventions:
* pandas float NaN is modelled by `Option ℚ`; every comparison against a
  possibly-NaN value uses a helper that returns `false` when either side is
  `none`, matching Python comparison semantics on NaN.
* A Python attribute that is read from the rules object but never assigned in
  `TradingRules.__init__` is modelled as an `Option` field whose default is
  `none`; reading it while `none` is an `AttributeError`, modelled by
  `Except.error ()`.
* The daily dataframe rows that `generate_signals` walks are `Row` values:
  the OHLCV columns plus the indicator columns that `calculate_indicators`
  adds.  Raw OHLCV cells are total rationals (the indicator columns are the
  NaN-prone ones the code guards with `pd.notna`).
* `check_weekly_trend` looks up the separately resampled weekly frame; it is
  modelled by a parameter `wt : Int → Bool` giving the weekly `Trend_Up`
  verdict for a date.
-/

/-- Python `a < b` where either side may be NaN (`none`): NaN compares false. -/
def oltq (a b : Option ℚ) : Bool :=
  match a, b with
  | some x, some y => decide (x < y)
  | _, _ => false

/-- Python `a <= b` where either side may be NaN (`none`): NaN compares false. -/
def oleq (a b : Option ℚ) : Bool :=
  match a, b with
  | some x, some y => decide (x ≤ y)
  | _, _ => false

/-- Python `a > b` where either side may be NaN (`none`): NaN compares false. -/
def ogtq (a b : Option ℚ) : Bool :=
  match a, b with
  | some x, some y => decide (y < x)
  | _, _ => false

/-- Python `a >= b` where either side may be NaN (`none`): NaN compares false. -/
def ogeq (a b : Option ℚ) : Bool :=
  match a, b with
  | some x, some y => decide (y ≤ x)
  | _, _ => false

/-- NaN-propagating multiplication: `NaN * c = NaN`. -/
def omul (a : Option ℚ) (c : ℚ) : Option ℚ := a.map (· * c)

/-- One row of the indicator-augmented daily dataframe that
`generate_signals` iterates over (columns produced by `calculate_indicators`).
Dates are day numbers. -/
structure Row where
  date : Int
  Open : ℚ
  High : ℚ
  Low : ℚ
  Close : ℚ
  Volume : ℚ
  MA_short : Option ℚ
  MA_mid : Option ℚ
  MA_long : Option ℚ
  MA_short_slope : Option ℚ
  MA_mid_slope : Option ℚ
  MA_long_slope : Option ℚ
  Volume_OK : Bool
  Recent_Low : Option ℚ
deriving Repr, DecidableEq

/-- Default row used only to make list indexing total; the state machine is
only ever evaluated at in-bounds indices. -/
def dRow : Row :=
  { date := 0, Open := 0, High := 0, Low := 0, Close := 0, Volume := 0
    MA_short := none, MA_mid := none, MA_long := none
    MA_short_slope := none, MA_mid_slope := none, MA_long_slope := none
    Volume_OK := false, Recent_Low := none }

/-- The `TradingRules` configuration object of `backtest.py`.  The trailing
`Option` fields are the attributes `check_exit_condition` reads but
`TradingRules.__init__` never assigns: `none` means the attribute does not
exist on the object, so reading it raises `AttributeError`. -/
structure TradingRules where
  ma_short : ℕ
  ma_mid : ℕ
  ma_long : ℕ
  ma_weekly_short : ℕ
  ma_weekly_long : ℕ
  pullback_method : String
  pullback_tolerance : ℚ
  ma_slope_threshold : ℚ
  ma_slope_period : ℕ
  use_slope_filter : Bool
  entry_trigger : String
  volume_threshold : ℚ
  volume_consecutive_days : ℕ
  use_volume_filter : Bool
  use_weekly_filter : Bool
  weekly_slope_threshold : ℚ
  weekly_slope_period : ℕ
  stop_loss_method : String
  stop_loss_percentage : ℚ
  stop_loss_lookback : ℕ
  exit_method : String
  take_profit_percentage : ℚ
  exit_timing : String
  hold_if_ma5_uptrend : Option Bool
  ma5_uptrend_threshold : Option ℚ
  ma5_exit_price_type : Option String
  ma5_exit_margin : Option ℚ
  ma5_exit_consecutive_days : Option ℕ
deriving Repr, DecidableEq

/-- `TradingRules.__init__`: the defaults a freshly constructed rules object
carries.  The four `ma5_*`/`hold_if_*` attributes are never assigned there. -/
def defaultRules : TradingRules :=
  { ma_short := 5
    ma_mid := 20
    ma_long := 50
    ma_weekly_short := 20
    ma_weekly_long := 50
    pullback_method := "ma_below"
    pullback_tolerance := 995/1000
    ma_slope_threshold := 1/2
    ma_slope_period := 5
    use_slope_filter := true
    entry_trigger := "price_cross_ma5"
    volume_threshold := 500000
    volume_consecutive_days := 5
    use_volume_filter := true
    use_weekly_filter := true
    weekly_slope_threshold := 2
    weekly_slope_period := 4
    stop_loss_method := "recent_low"
    stop_loss_percentage := 98/100
    stop_loss_lookback := 5
    exit_method := "ma5_cross"
    take_profit_percentage := 105/100
    exit_timing := "next_open"
    hold_if_ma5_uptrend := none
    ma5_uptrend_threshold := none
    ma5_exit_price_type := none
    ma5_exit_margin := none
    ma5_exit_consecutive_days := none }

/-- `SwingTradeBacktest.check_pullback`. -/
def check_pullback (rules : TradingRules) (current : Row) : Bool :=
  if rules.pullback_method = "ma_below" then
    oltq current.MA_short current.MA_mid
  else if rules.pullback_method = "price_touch" then
    oleq (some current.Low) (omul current.MA_short rules.pullback_tolerance)
  else if rules.pullback_method = "both" then
    oleq (some current.Low) (omul current.MA_short rules.pullback_tolerance)
      && oltq current.MA_short current.MA_mid
  else false

/-- `SwingTradeBacktest.check_entry_trigger`. -/
def check_entry_trigger (rules : TradingRules) (current prev : Row) : Bool :=
  if rules.entry_trigger = "price_cross_ma5" then
    ogeq (some current.High) current.MA_short
  else if rules.entry_trigger = "ma_cross" then
    oltq prev.MA_short prev.MA_mid && ogeq current.MA_short current.MA_mid
  else if rules.entry_trigger = "close_above" then
    ogtq (some current.Close) current.MA_short
  else false

/-- `SwingTradeBacktest.calculate_stop_loss` (NaN-propagating: with the
`recent_low` method the result is NaN when `Recent_Low` is NaN). -/
def calculate_stop_loss (rules : TradingRules) (entry_price : ℚ)
    (current : Row) : Option ℚ :=
  if rules.stop_loss_method = "recent_low" then
    omul current.Recent_Low rules.stop_loss_percentage
  else if rules.stop_loss_method = "percentage" then
    some (entry_price * rules.stop_loss_percentage)
  else some (entry_price * (98/100))

/-- An open position (`position` dict in `generate_signals`). -/
structure Position where
  entry_date : Int
  entry_price : ℚ
  stop_loss : Option ℚ
  shares : ℚ
deriving Repr, DecidableEq

/-- A recorded trade (`trade` dict appended to `self.trades`). -/
structure Trade where
  entry_date : Int
  exit_date : Int
  entry_price : ℚ
  exit_price : ℚ
  shares : ℚ
  profit : ℚ
  profit_pct : ℚ
  exit_reason : Option String
  holding_days : Int
deriving Repr, DecidableEq

/-- `SwingTradeBacktest.check_exit_condition`.  Returns
`(should_exit, exit_reason)`, or `Except.error ()` when the Python code
would raise `AttributeError` on a rules attribute that was never assigned. -/
def check_exit_condition (rules : TradingRules) (current : Row)
    (position : Position) : Except Unit (Bool × Option String) :=
  if rules.stop_loss_method = "recent_low" then
    let stop_loss_price := omul current.Recent_Low rules.stop_loss_percentage
    if oleq (some current.Close) stop_loss_price then
      match rules.hold_if_ma5_uptrend with
      | none => .error ()
      | some hold =>
        if hold then
          match current.MA_short_slope with
          | none => .ok (true, some "Stop Loss (Close)")
          | some sl =>
            match rules.ma5_uptrend_threshold with
            | none => .error ()
            | some th =>
              if th < sl then .ok (false, none)
              else .ok (true, some "Stop Loss (Close)")
        else .ok (true, some "Stop Loss (Close)")
    else checkExitRest rules current position
  else if rules.stop_loss_method = "percentage" then
    if oleq (some current.Close)
        (some (position.entry_price * rules.stop_loss_percentage)) then
      .ok (true, some "Stop Loss (Percentage)")
    else checkExitRest rules current position
  else checkExitRest rules current position
where
  /-- The take-profit / exit-method section at the bottom of
  `check_exit_condition`, reached when no stop-loss branch returned. -/
  checkExitRest (rules : TradingRules) (current : Row) (position : Position) :
      Except Unit (Bool × Option String) :=
    if rules.exit_method = "ma5_cross" then
      if current.MA_short.isSome && oltq (some current.Close) current.MA_short then
        .ok (true, some "MA_short Cross Exit")
      else .ok (false, none)
    else if rules.exit_method = "ma5_advanced" then
      match rules.ma5_exit_price_type with
      | none => .error ()
      | some ty =>
        let price := if ty = "close" then current.Close
          else if ty = "open" then current.Open
          else if ty = "low" then current.Low
          else if ty = "high" then current.High
          else current.Close
        match rules.ma5_exit_margin with
        | none => .error ()
        | some margin =>
          let ma_threshold := omul current.MA_short (1 - margin / 100)
          if current.MA_short.isSome && oltq (some price) ma_threshold then
            match rules.ma5_exit_consecutive_days with
            | none => .error ()
            | some d =>
              if d ≤ 1 then .ok (true, some ("MA_short Exit (" ++ ty ++ ")"))
              else .ok (false, none)
          else .ok (false, none)
    else if rules.exit_method = "percentage" then
      if oleq (some (position.entry_price * rules.take_profit_percentage))
          (some current.High) then
        .ok (true, some "Take Profit")
      else .ok (false, none)
    else .ok (false, none)

/-- Mutable loop state of `generate_signals`: the local variables
`position` and `entry_signal_date`, plus `self.trades`. -/
structure BTState where
  position : Option Position
  entry_signal_date : Option Int
  trades : List Trade
deriving Repr, DecidableEq

/-- One iteration of the `for i in range(1, len(df))` loop body of
`generate_signals`, at loop index `i`.  `wt d` is
`check_weekly_trend(d)` over the precomputed weekly frame. -/
def stepBar (rules : TradingRules) (wt : Int → Bool) (df : List Row)
    (i : ℕ) (st : BTState) : Except Unit BTState :=
  let current := df.getD i dRow
  let prev := df.getD (i - 1) dRow
  match st.position with
  | none =>
    if st.entry_signal_date = some prev.date then
      let entry_price := current.Open
      let stop_loss := calculate_stop_loss rules entry_price prev
      .ok { position := some { entry_date := current.date,
                               entry_price := entry_price,
                               stop_loss := stop_loss, shares := 1 }
            entry_signal_date := none
            trades := st.trades }
    else if rules.use_weekly_filter && !(wt current.date) then
      .ok st
    else if current.MA_short.isSome && current.MA_mid.isSome then
      let pullback := check_pullback rules current
      let ma_trending :=
        if rules.use_slope_filter then
          ogtq current.MA_mid_slope (some rules.ma_slope_threshold)
        else true
      let volume_ok :=
        if rules.use_volume_filter then current.Volume_OK else true
      let entry_trigger := check_entry_trigger rules current prev
      if pullback && ma_trending && volume_ok && entry_trigger then
        .ok { st with entry_signal_date := some current.date }
      else .ok st
    else .ok st
  | some position =>
    match check_exit_condition rules current position with
    | .error e => .error e
    | .ok (should_exit, exit_reason) =>
      if should_exit then
        let ed : Int × ℚ :=
          if rules.exit_timing = "next_open" ∧ i + 1 < df.length then
            ((df.getD (i + 1) dRow).date, (df.getD (i + 1) dRow).Open)
          else (current.date, current.Close)
        let exit_date := ed.1
        let exit_price := ed.2
        let profit := (exit_price - position.entry_price) * position.shares
        let profit_pct := (exit_price / position.entry_price - 1) * 100
        let trade : Trade :=
          { entry_date := position.entry_date
            exit_date := exit_date
            entry_price := position.entry_price
            exit_price := exit_price
            shares := position.shares
            profit := profit
            profit_pct := profit_pct
            exit_reason := exit_reason
            holding_days := exit_date - position.entry_date }
        .ok { position := none
              entry_signal_date := st.entry_signal_date
              trades := st.trades ++ [trade] }
      else .ok st

/-- The loop of `generate_signals`: `n` remaining iterations starting at
loop index `i` (the Python loop runs `i` over `range(1, len(df))`, so the
top-level call uses `n = len(df) - 1`, `i = 1`). -/
def generateSignalsAux (rules : TradingRules) (wt : Int → Bool)
    (df : List Row) : ℕ → ℕ → BTState → Except Unit BTState
  | 0, _, st => .ok st
  | n + 1, i, st =>
    match stepBar rules wt df i st with
    | .error e => .error e
    | .ok st' => generateSignalsAux rules wt df n (i + 1) st'

/-- `SwingTradeBacktest.generate_signals`: walks the (already
start-date-filtered) dataframe from index 1, appending recorded trades to
the `trades0` list already stored on the object.  A still-open position at
the end of the loop is discarded with the loop state. -/
def generate_signals (rules : TradingRules) (wt : Int → Bool)
    (df : List Row) (trades0 : List Trade) : Except Unit (List Trade) :=
  match generateSignalsAux rules wt df (df.length - 1) 1
      { position := none, entry_signal_date := none, trades := trades0 } with
  | .error e => .error e
  | .ok st => .ok st.trades

/-- Projection of an `Except` result used to state concrete evaluations. -/
def exceptOk : Except Unit α → Option α
  | .ok a => some a
  | .error _ => none

/-- `trades_df['profit'].cumsum()`. -/
def cumsumAux (acc : ℚ) : List ℚ → List ℚ
  | [] => []
  | x :: xs => (acc + x) :: cumsumAux (acc + x) xs

/-- Cumulative sum of a column. -/
def cumsum (l : List ℚ) : List ℚ := cumsumAux 0 l

/-- `cummax` tail worker: running maximum continuing from `m`. -/
def cummaxAux (m : ℚ) : List ℚ → List ℚ
  | [] => []
  | x :: xs => max m x :: cummaxAux (max m x) xs

/-- `trades_df['cumulative_profit'].cummax()`. -/
def cummax : List ℚ → List ℚ
  | [] => []
  | x :: xs => x :: cummaxAux x xs

/-- `series.min()` of a nonempty column (`0` only for the empty list, which
`calculate_performance` never passes). -/
def colMin : List ℚ → ℚ
  | [] => 0
  | x :: xs => xs.foldl min x

/-- The summary dict built by `SwingTradeBacktest.calculate_performance`,
together with the three derived columns it adds to `trades_df`. -/
structure Performance where
  total_trades : ℕ
  winning_trades : ℕ
  losing_trades : ℕ
  win_rate : ℚ
  total_profit : ℚ
  avg_profit : ℚ
  avg_loss : ℚ
  avg_profit_pct : ℚ
  avg_loss_pct : ℚ
  max_drawdown : ℚ
  avg_holding_days : ℚ
  profit_factor : ℚ
  cumulative_profit : List ℚ
  running_max : List ℚ
  drawdown : List ℚ
deriving Repr, DecidableEq

/-- `SwingTradeBacktest.calculate_performance`: `none` is the "no trades"
early return. -/
def calculate_performance (trades : List Trade) : Option Performance :=
  if trades.length = 0 then none
  else
    let total_trades := trades.length
    let winners := trades.filter (fun t => decide (0 < t.profit))
    let losers := trades.filter (fun t => decide (t.profit ≤ 0))
    let winning_trades := winners.length
    let losing_trades := losers.length
    let win_rate : ℚ :=
      if 0 < total_trades then (winning_trades : ℚ) / total_trades * 100 else 0
    let total_profit := (trades.map (·.profit)).sum
    let avg_profit : ℚ :=
      if 0 < winning_trades then
        ((winners.map (·.profit)).sum) / winning_trades else 0
    let avg_loss : ℚ :=
      if 0 < losing_trades then
        ((losers.map (·.profit)).sum) / losing_trades else 0
    let avg_profit_pct : ℚ :=
      if 0 < winning_trades then
        ((winners.map (·.profit_pct)).sum) / winning_trades else 0
    let avg_loss_pct : ℚ :=
      if 0 < losing_trades then
        ((losers.map (·.profit_pct)).sum) / losing_trades else 0
    let cumulative_profit := cumsum (trades.map (·.profit))
    let running_max := cummax cumulative_profit
    let drawdown := List.zipWith (· - ·) cumulative_profit running_max
    let max_drawdown := colMin drawdown
    let avg_holding_days : ℚ :=
      ((trades.map (fun t => (t.holding_days : ℚ))).sum) / total_trades
    some
      { total_trades := total_trades
        winning_trades := winning_trades
        losing_trades := losing_trades
        win_rate := win_rate
        total_profit := total_profit
        avg_profit := avg_profit
        avg_loss := avg_loss
        avg_profit_pct := avg_profit_pct
        avg_loss_pct := avg_loss_pct
        max_drawdown := max_drawdown
        avg_holding_days := avg_holding_days
        profit_factor := if avg_loss ≠ 0 then |avg_profit / avg_loss| else 0
        cumulative_profit := cumulative_profit
        running_max := running_max
        drawdown := drawdown }

/-! ## Screening engine (`screening.py`) -/

/-- Module constant `MA_SHORT` of `screening.py`. -/
def MA_SHORT : ℕ := 7
/-- Module constant `MA_MID` of `screening.py`. -/
def MA_MID : ℕ := 20
/-- Module constant `MA_LONG` of `screening.py`. -/
def MA_LONG : ℕ := 60
/-- Module constant `SLOPE_THRESHOLD` of `screening.py`. -/
def SLOPE_THRESHOLD : ℚ := 12/10
/-- Module constant `SLOPE_PERIOD` of `screening.py`. -/
def SLOPE_PERIOD : ℕ := 5

/-- The latest-bar values `get_data_and_screen_advanced` extracts for one
ticker from the vectorised rolling computation (`latest_close[ticker]`,
`latest_ma7[ticker]`, ...).  `none` models a NaN cell. -/
structure TickerLatest where
  close : Option ℚ
  ma7 : Option ℚ
  ma20 : Option ℚ
  ma60 : Option ℚ
  slope : Option ℚ
deriving Repr, DecidableEq

/-- One element of the screened universe: the `(code, name)` pair plus the
per-ticker latest indicator values.  `data = none` models a per-ticker
exception inside the loop body (for example a missing column raising
`KeyError`), which the `try/except` swallows. -/
structure StockItem where
  code : String
  name : String
  data : Option TickerLatest
deriving Repr, DecidableEq

/-- One row of the screening result (`result.append({...})`). -/
structure ScreeningRow where
  Code : String
  Name : String
  Slope_MA20 : ℚ
  C1_Trend : Bool
  C2_Long : Bool
  C3_Pullback : Bool
  C4_Trigger : Bool
  All_Signal : Bool
deriving Repr, DecidableEq

/-- Loop body of `get_data_and_screen_advanced` for one ticker: `none`
when the ticker is skipped (exception, missing `MA60`, or `C1` false). -/
def screenOne (item : StockItem) : Option ScreeningRow :=
  match item.data with
  | none => none
  | some d =>
    match d.ma60 with
    | none => none
    | some _ =>
      let c1 := ogeq d.slope (some SLOPE_THRESHOLD)
      let c2 := ogtq d.ma20 d.ma60
      let c3 := oltq d.ma7 d.ma20
      let c4 := ogtq d.close d.ma7
      let signal := c1 && c2 && c3 && c4
      if c1 then
        some { Code := item.code, Name := item.name
               Slope_MA20 := d.slope.getD 0
               C1_Trend := c1, C2_Long := c2, C3_Pullback := c3
               C4_Trigger := c4, All_Signal := signal }
      else none

/-- The unsorted `result` list accumulated by the ticker loop. -/
def screenRows (l : List StockItem) : List ScreeningRow :=
  l.filterMap screenOne

/-- `a` strictly precedes `b` under the two sort keys
`["All_Signal", "Slope_MA20"]`, both descending. -/
def keyGT (a b : ScreeningRow) : Bool :=
  (a.All_Signal && !b.All_Signal)
    || ((a.All_Signal == b.All_Signal) && decide (b.Slope_MA20 < a.Slope_MA20))

/-- Stable descending insertion for `sortDesc`. -/
def insertRow (x : ScreeningRow) : List ScreeningRow → List ScreeningRow
  | [] => [x]
  | y :: ys => if keyGT y x then y :: insertRow x ys else x :: y :: ys

/-- `df.sort_values(["All_Signal", "Slope_MA20"], ascending=[False, False])`.
pandas multi-key `sort_values` sorts through `np.lexsort`, a stable sort;
this stable insertion sort realises the same ordering. -/
def sortDesc : List ScreeningRow → List ScreeningRow
  | [] => []
  | x :: xs => insertRow x (sortDesc xs)

/-- `get_data_and_screen_advanced` (from `yf.download` onwards): evaluate
every ticker of the universe, keep the rows the loop appends, sort. -/
def get_data_and_screen_advanced (l : List StockItem) : List ScreeningRow :=
  sortDesc (screenRows l)

/-! ## Concrete scenarios used by witnesses and counterexamples -/

/-- A weekly frame whose `Trend_Up` verdict is `True` on every date. -/
def wtAlways : Int → Bool := fun _ => true

/-- A bar satisfying every default-rules entry condition that
`generate_signals` actually checks, while `MA_long` is undefined. -/
def rowSignalNoLong : Row :=
  { date := 1, Open := 9, High := 10, Low := 8, Close := 9, Volume := 1000000
    MA_short := some 10, MA_mid := some 11, MA_long := none
    MA_short_slope := none, MA_mid_slope := some 1, MA_long_slope := none
    Volume_OK := true, Recent_Low := some 1 }

/-- The fill bar following `rowSignalNoLong`: the position opens at its
open price `50`. -/
def rowEntry : Row :=
  { date := 2, Open := 50, High := 52, Low := 49, Close := 51, Volume := 1000000
    MA_short := none, MA_mid := none, MA_long := none
    MA_short_slope := none, MA_mid_slope := none, MA_long_slope := none
    Volume_OK := true, Recent_Low := some 10 }

/-- A bar triggering only the MA-cross exit: its close `40` is above the
recomputed stop `10 * 0.98` but below `MA_short = 45`. -/
def rowExitCross : Row :=
  { date := 3, Open := 41, High := 43, Low := 39, Close := 40, Volume := 1000000
    MA_short := some 45, MA_mid := none, MA_long := none
    MA_short_slope := none, MA_mid_slope := none, MA_long_slope := none
    Volume_OK := true, Recent_Low := some 10 }

/-- The final bar: the MA-cross exit fills at its open price `42`. -/
def rowLast : Row :=
  { date := 4, Open := 42, High := 44, Low := 41, Close := 43, Volume := 1000000
    MA_short := none, MA_mid := none, MA_long := none
    MA_short_slope := none, MA_mid_slope := none, MA_long_slope := none
    Volume_OK := true, Recent_Low := some 10 }

/-- A five-bar series producing exactly one complete trade under the
default rules (entry signalled on bar 1, filled on bar 2, MA-cross exit
signalled on bar 3, filled at bar 4's open). -/
def dfOneTrade : List Row := [dRow, rowSignalNoLong, rowEntry, rowExitCross, rowLast]

/-- The single trade recorded on `dfOneTrade`. -/
def tradeOne : Trade :=
  { entry_date := 2, exit_date := 4, entry_price := 50, exit_price := 42
    shares := 1, profit := -8, profit_pct := -16
    exit_reason := some "MA_short Cross Exit", holding_days := 2 }

/-- A rules object whose only difference from the defaults is that the
otherwise-missing attribute `hold_if_ma5_uptrend` has been assigned
`False` (as a caller could do after construction). -/
def holdFalseRules : TradingRules :=
  { defaultRules with hold_if_ma5_uptrend := some false }

/-- A trade carrying a given profit (the other fields are irrelevant to
the aggregation scenario). -/
def c6trade (p : ℚ) : Trade :=
  { entry_date := 0, exit_date := 1, entry_price := 1, exit_price := 1
    shares := 1, profit := p, profit_pct := 0, exit_reason := none
    holding_days := 1 }

/-- The performance summary of the `[100, -50, 200]` profit scenario. -/
def c6perf : Performance :=
  { total_trades := 3, winning_trades := 2, losing_trades := 1
    win_rate := 200/3, total_profit := 250, avg_profit := 150
    avg_loss := -50, avg_profit_pct := 0, avg_loss_pct := 0
    max_drawdown := -50, avg_holding_days := 1, profit_factor := 3
    cumulative_profit := [100, 50, 250], running_max := [100, 100, 250]
    drawdown := [0, -50, 0] }

/-- The open position produced by `dfOneTrade`'s entry fill. -/
def posOne : Position :=
  { entry_date := 2, entry_price := 50, stop_loss := some (49/50), shares := 1 }

/-- A bar on which neither exit condition fires (`Recent_Low` NaN, so the
stop comparison is false; `MA_short` NaN, so the MA-cross comparison is
false). -/
def rowHold : Row :=
  { date := 3, Open := 60, High := 62, Low := 59, Close := 60, Volume := 1000000
    MA_short := none, MA_mid := none, MA_long := none
    MA_short_slope := none, MA_mid_slope := none, MA_long_slope := none
    Volume_OK := true, Recent_Low := none }

/-- A four-bar series on which a position is opened and never exited: the
series ends with the position still open. -/
def dfOpenEnd : List Row := [dRow, rowSignalNoLong, rowEntry, rowHold]

/-- A bar on which the recomputed stop-loss condition and the MA-cross
condition both hold (`Close 9 ≤ Recent_Low 10 × 0.98` and
`Close 9 < MA_short 45`). -/
def rowStopHit : Row :=
  { date := 3, Open := 11, High := 12, Low := 9, Close := 9, Volume := 1000000
    MA_short := some 45, MA_mid := none, MA_long := none
    MA_short_slope := none, MA_mid_slope := none, MA_long_slope := none
    Volume_OK := true, Recent_Low := some 10 }

/-- A five-bar series in which the open position hits the recomputed stop
on bar 3. -/
def dfStopHit : List Row := [dRow, rowSignalNoLong, rowEntry, rowStopHit, rowLast]

/-- The two sort keys of a screening row. -/
def rowKey (r : ScreeningRow) : Bool × ℚ := (r.All_Signal, r.Slope_MA20)

/-- The exit fill `(exit_date, exit_price)` used by the exit branch of
`generate_signals` with `exit_timing = 'next_open'`: the next bar's open
when a next bar exists, else the current bar's close. -/
def exitFill (df : List Row) (i : ℕ) : Int × ℚ :=
  if i + 1 < df.length then
    ((df.getD (i + 1) dRow).date, (df.getD (i + 1) dRow).Open)
  else ((df.getD i dRow).date, (df.getD i dRow).Close)

/-- The trade record the exit branch of `generate_signals` appends when a
position `p` is closed on bar `i` for reason `r`. -/
def mkExitTrade (df : List Row) (i : ℕ) (p : Position) (r : Option String) :
    Trade :=
  { entry_date := p.entry_date
    exit_date := (exitFill df i).1
    entry_price := p.entry_price
    exit_price := (exitFill df i).2
    shares := p.shares
    profit := ((exitFill df i).2 - p.entry_price) * p.shares
    profit_pct := ((exitFill df i).2 / p.entry_price - 1) * 100
    exit_reason := r
    holding_days := (exitFill df i).1 - p.entry_date }

/-- A position whose fixed-at-entry stop (`9.8`, from an entry bar with
`Recent_Low = 10`) coincides with the stop recomputed on `rowStopHit`. -/
def posStop : Position :=
  { entry_date := 2, entry_price := 50, stop_loss := some (49/5), shares := 1 }

/-- The bar dates of `df` are strictly increasing (a dataframe index of
trading days). -/
def DatesMono (df : List Row) : Prop :=
  ∀ j, j < df.length → ∀ i, i < j →
    (df.getD i dRow).date < (df.getD j dRow).date

/-- Upper bound date used by the loop invariant: the date of bar
`min i (df.length - 1)`. -/
def dUB (df : List Row) (i : ℕ) : Int :=
  (df.getD (min i (df.length - 1)) dRow).date

/-- Trades are chronologically disjoint: each closes no later than the
next opens, and each opens strictly before it closes. -/
def TradesChain (l : List Trade) : Prop :=
  l.Pairwise (fun a b => a.exit_date ≤ b.entry_date)
  ∧ ∀ t ∈ l, t.entry_date < t.exit_date

/-- Loop invariant of `generate_signals` before processing loop index `i`. -/
def LoopInv (df : List Row) (i : ℕ) (st : BTState) : Prop :=
  TradesChain st.trades ∧
  match st.position, st.entry_signal_date with
  | some p, _ =>
      st.entry_signal_date = none
      ∧ p.entry_date ≤ (df.getD (i - 1) dRow).date
      ∧ ∀ t ∈ st.trades, t.exit_date ≤ p.entry_date
  | none, some d =>
      d = (df.getD (i - 1) dRow).date ∧ ∀ t ∈ st.trades, t.exit_date ≤ d
  | none, none => ∀ t ∈ st.trades, t.exit_date ≤ dUB df i


/-! ## C9: TradingRules defaults -/

unseal Rat.mul Rat.inv Rat.add Rat.sub in
/-- C9 counterexample: a freshly constructed `TradingRules` does not carry
the claimed defaults — `ma_short` is 5 (not 7), `ma_long` is 50 (not 60)
and the slope threshold is 0.5 (not 1.2). -/
theorem C9_defaults_counterexample :
    ¬ (defaultRules.ma_short = 7 ∧ defaultRules.ma_mid = 20 ∧
       defaultRules.ma_long = 60 ∧ defaultRules.ma_slope_period = 5 ∧
       defaultRules.ma_slope_threshold = 12/10 ∧
       defaultRules.stop_loss_lookback = 5 ∧
       defaultRules.stop_loss_percentage = 98/100) := by
  decide

unseal Rat.mul Rat.inv Rat.add Rat.sub in
/-- C9 (amended): a freshly constructed `TradingRules` has `ma_short = 5`,
`ma_mid = 20`, `ma_long = 50`, slope period 5, slope threshold 0.5,
stop-loss look-back 5 and stop-loss percentage 0.98; the 7/20/60/1.2/5
values of the claim are the module constants of `screening.py`, not the
backtest defaults. -/
theorem C9_defaults :
    defaultRules.ma_short = 5 ∧ defaultRules.ma_mid = 20 ∧
    defaultRules.ma_long = 50 ∧ defaultRules.ma_slope_period = 5 ∧
    defaultRules.ma_slope_threshold = 1/2 ∧
    defaultRules.stop_loss_lookback = 5 ∧
    defaultRules.stop_loss_percentage = 98/100 ∧
    MA_SHORT = 7 ∧ MA_MID = 20 ∧ MA_LONG = 60 ∧
    SLOPE_PERIOD = 5 ∧ SLOPE_THRESHOLD = 12/10 := by
  decide

/-! ## C6: performance aggregation -/

unseal Rat.mul Rat.inv Rat.add Rat.sub in
/-- C6: on the three-trade scenario with profits `[100, -50, 200]` the
aggregator computes `cumulative_profit = [100, 50, 250]`,
`running_max = [100, 100, 250]`, `drawdown = [0, -50, 0]`,
`max_drawdown = -50`, `win_rate = 200/3` percent and `profit_factor = 3`;
and in general `profit_factor = |avg_profit / avg_loss|` when
`avg_loss ≠ 0` and `0` when `avg_loss = 0`. -/
theorem C6_performance :
    ((calculate_performance [c6trade 100, c6trade (-50), c6trade 200]).map
        (fun p => (p.cumulative_profit, p.running_max, p.drawdown,
                   p.max_drawdown, p.win_rate, p.profit_factor)) =
      some ([100, 50, 250], [100, 100, 250], [0, -50, 0], -50, 200/3, 3))
    ∧ ∀ ts perf, calculate_performance ts = some perf →
        (perf.avg_loss ≠ 0 →
          perf.profit_factor = |perf.avg_profit / perf.avg_loss|)
        ∧ (perf.avg_loss = 0 → perf.profit_factor = 0) := by
  constructor
  · decide
  · intro ts perf h
    unfold calculate_performance at h
    split at h
    · exact absurd h (by simp)
    · have h' := Option.some.inj h
      subst h'
      constructor
      · intro hl
        simp only at hl ⊢
        rw [if_pos hl]
      · intro hl
        simp only at hl ⊢
        rw [if_neg (by simp [hl])]

unseal Rat.mul Rat.inv Rat.add Rat.sub in
/-- C6 witness: the general profit-factor formula applied to the concrete
three-trade scenario. -/
theorem C6_performance_witness :
    c6perf.profit_factor = |c6perf.avg_profit / c6perf.avg_loss| :=
  (C6_performance.2 [c6trade 100, c6trade (-50), c6trade 200] c6perf
    (by decide)).1 (by decide)

/-! ## C1: entry-signal conditions -/

lemma check_pullback_default (c : Row) :
    check_pullback defaultRules c = oltq c.MA_short c.MA_mid := rfl

lemma check_entry_trigger_default (c p : Row) :
    check_entry_trigger defaultRules c p = ogeq (some c.High) c.MA_short := rfl

unseal Rat.mul Rat.inv Rat.add Rat.sub in
/-- C1 counterexample: under the default rules, bar 1 of `dfOneTrade` sets
a pending entry (`entry_signal_date` becomes its date) even though its
`MA_long` is undefined — the backtest entry logic never consults
`MA_long`, contradicting the claimed LongTrend requirement. -/
theorem C1_entry_counterexample :
    exceptOk (stepBar defaultRules wtAlways dfOneTrade 1
        { position := none, entry_signal_date := none, trades := [] }) =
      some { position := none, entry_signal_date := some 1, trades := [] }
    ∧ (dfOneTrade.getD 1 dRow).MA_long = none := by
  decide

/-- C1 (amended): with the default rules, on a bar processed with no open
position and no outstanding pending-entry flag, the pending entry is set
iff ALL of: the weekly-trend filter passes, MA_short and MA_mid are
defined, MA_short < MA_mid (Pullback), MA_mid_slope is defined and
exceeds the 0.5 slope threshold (Trending), the volume-streak flag
Volume_OK holds, and the bar's high ≥ MA_short (Trigger).  MA_long plays
no role: the claimed LongTrend condition (MA_mid > MA_long) is not
checked by the backtest. -/
theorem C1_entry_amended (wt : Int → Bool) (df : List Row) (i : ℕ)
    (st : BTState) (hp : st.position = none)
    (he : st.entry_signal_date = none) :
    stepBar defaultRules wt df i st =
      .ok (if wt (df.getD i dRow).date
              && ((df.getD i dRow).MA_short.isSome
                    && (df.getD i dRow).MA_mid.isSome)
              && oltq (df.getD i dRow).MA_short (df.getD i dRow).MA_mid
              && ogtq (df.getD i dRow).MA_mid_slope
                  (some defaultRules.ma_slope_threshold)
              && (df.getD i dRow).Volume_OK
              && ogeq (some (df.getD i dRow).High) (df.getD i dRow).MA_short
            then { st with entry_signal_date := some (df.getD i dRow).date }
            else st) := by
  unfold stepBar
  rw [hp, he]
  simp only [check_pullback_default, check_entry_trigger_default]
  by_cases hwt : wt (df.getD i dRow).date = true <;>
    by_cases hms : (df.getD i dRow).MA_short.isSome = true <;>
    by_cases hmm : (df.getD i dRow).MA_mid.isSome = true <;>
    simp_all [defaultRules, apply_ite (Except.ok (ε := Unit)), Bool.and_assoc]

unseal Rat.mul Rat.inv Rat.add Rat.sub in
/-- C1 witness: the amended characterisation applied to `dfOneTrade` with
a weekly filter that vetoes every date: no pending entry is set. -/
theorem C1_entry_amended_witness :
    stepBar defaultRules (fun _ => false) dfOneTrade 1
        { position := none, entry_signal_date := none, trades := [] } =
      .ok { position := none, entry_signal_date := none, trades := [] } := by
  have h := C1_entry_amended (fun _ => false) dfOneTrade 1
    { position := none, entry_signal_date := none, trades := [] } rfl rfl
  rw [h]
  rfl

/-! ## C2, C3, C7: exit conditions -/

lemma check_exit_default_eq (c : Row) (p : Position) :
    check_exit_condition defaultRules c p =
      if oleq (some c.Close)
          (omul c.Recent_Low defaultRules.stop_loss_percentage) then
        .error ()
      else if c.MA_short.isSome && oltq (some c.Close) c.MA_short then
        .ok (true, some "MA_short Cross Exit")
      else .ok (false, none) := rfl

lemma check_exit_holdfalse_eq (c : Row) (p : Position) :
    check_exit_condition holdFalseRules c p =
      if oleq (some c.Close)
          (omul c.Recent_Low holdFalseRules.stop_loss_percentage) then
        .ok (true, some "Stop Loss (Close)")
      else if c.MA_short.isSome && oltq (some c.Close) c.MA_short then
        .ok (true, some "MA_short Cross Exit")
      else .ok (false, none) := rfl

/-- The exit branch of `generate_signals`: when a position is open and
`check_exit_condition` fires with reason `r` under `next_open` exit
timing, the position is cleared and `mkExitTrade` is appended. -/
lemma stepBar_exit (rules : TradingRules) (wt : Int → Bool) (df : List Row)
    (i : ℕ) (st : BTState) (p : Position) (r : Option String)
    (hp : st.position = some p)
    (hx : check_exit_condition rules (df.getD i dRow) p = .ok (true, r))
    (ht : rules.exit_timing = "next_open") :
    stepBar rules wt df i st =
      .ok { position := none, entry_signal_date := st.entry_signal_date
            trades := st.trades ++ [mkExitTrade df i p r] } := by
  unfold stepBar
  rw [hp]
  dsimp only
  rw [hx]
  dsimp only
  by_cases hn : i + 1 < df.length <;>
    simp [ht, hn, exitFill, mkExitTrade]

/-- C7: whenever a position is open, the stop-loss comparison is false on
the current bar, MA_short is defined and the current close is below it,
the position is closed with reason `MA_short Cross Exit` (the MACross
exit), filled at the next bar's open when a next bar exists and at the
current bar's close otherwise. -/
theorem C7_ma_cross_exit (wt : Int → Bool) (df : List Row) (i : ℕ)
    (st : BTState) (p : Position) (m : ℚ)
    (hp : st.position = some p)
    (hstop : oleq (some (df.getD i dRow).Close)
        (omul (df.getD i dRow).Recent_Low
          defaultRules.stop_loss_percentage) = false)
    (hma : (df.getD i dRow).MA_short = some m)
    (hlt : (df.getD i dRow).Close < m) :
    stepBar defaultRules wt df i st =
      .ok { position := none, entry_signal_date := st.entry_signal_date
            trades := st.trades ++
              [mkExitTrade df i p (some "MA_short Cross Exit")] } := by
  apply stepBar_exit defaultRules wt df i st p _ hp ?_ rfl
  rw [check_exit_default_eq]
  rw [if_neg (by rw [hstop]; exact Bool.false_ne_true)]
  rw [if_pos (by
    rw [hma]
    simp only [oltq, Option.isSome_some, Bool.true_and, decide_eq_true_eq]
    exact hlt)]

unseal Rat.mul Rat.inv Rat.add Rat.sub in
/-- C7 witness: on `dfOneTrade` at bar 3 with the open position `posOne`,
the MACross exit closes the trade at bar 4's open. -/
theorem C7_ma_cross_exit_witness :
    stepBar defaultRules wtAlways dfOneTrade 3
        { position := some posOne, entry_signal_date := none, trades := [] } =
      .ok { position := none, entry_signal_date := none, trades := [tradeOne] } := by
  have h := C7_ma_cross_exit wtAlways dfOneTrade 3
    { position := some posOne, entry_signal_date := none, trades := [] }
    posOne 45 rfl (by decide) (by decide) (by decide)
  rw [h]
  rfl

unseal Rat.mul Rat.inv Rat.add Rat.sub in
/-- C2 counterexample: on bar 3 of `dfStopHit` the close (9) is below the
position's fixed-at-entry stop (9.8), yet under the default rules the
evaluation aborts (AttributeError) instead of closing the position with a
StopLoss trade; and with `hold_if_ma5_uptrend` assigned `False` the
position is closed with reason `Stop Loss (Close)` but at the NEXT bar's
open (42), not at the current bar's close (9). -/
theorem C2_stop_loss_counterexample :
    oleq (some (dfStopHit.getD 3 dRow).Close) posStop.stop_loss = true
    ∧ exceptOk (stepBar defaultRules wtAlways dfStopHit 3
        { position := some posStop, entry_signal_date := none, trades := [] }) =
      none
    ∧ exceptOk (stepBar holdFalseRules wtAlways dfStopHit 3
        { position := some posStop, entry_signal_date := none, trades := [] }) =
      some { position := none, entry_signal_date := none
             trades := [{ entry_date := 2, exit_date := 4, entry_price := 50
                          exit_price := 42, shares := 1, profit := -8
                          profit_pct := -16
                          exit_reason := some "Stop Loss (Close)"
                          holding_days := 2 }] }
    ∧ (42 : ℚ) ≠ (dfStopHit.getD 3 dRow).Close := by
  refine ⟨by decide, by decide, by decide, by decide⟩

/-- C2 (amended): the stop-loss price is recomputed on every bar as the
CURRENT bar's `Recent_Low × stop_loss_percentage` (the stop stored at
entry is unused); under the default rules a bar whose close is at or
below that price raises AttributeError, while with `hold_if_ma5_uptrend`
assigned `False` such a bar closes the position with reason
`Stop Loss (Close)` — filled at the next bar's open when one exists, else
at the current close — and the stop-loss check precedes the MA-cross
check, so only the stop-loss exit fires when both would trigger. -/
theorem C2_stop_loss_amended (wt : Int → Bool) (df : List Row) (i : ℕ)
    (st : BTState) (p : Position)
    (hp : st.position = some p)
    (htrig : oleq (some (df.getD i dRow).Close)
        (omul (df.getD i dRow).Recent_Low
          holdFalseRules.stop_loss_percentage) = true) :
    stepBar holdFalseRules wt df i st =
      .ok { position := none, entry_signal_date := st.entry_signal_date
            trades := st.trades ++
              [mkExitTrade df i p (some "Stop Loss (Close)")] } := by
  apply stepBar_exit holdFalseRules wt df i st p _ hp ?_ rfl
  rw [check_exit_holdfalse_eq]
  rw [if_pos htrig]

unseal Rat.mul Rat.inv Rat.add Rat.sub in
/-- C2 witness: the amended stop-loss behaviour applied to `dfStopHit`
with an already-recorded trade and a stale pending date in the state. -/
theorem C2_stop_loss_amended_witness :
    stepBar holdFalseRules wtAlways dfStopHit 3
        { position := some posStop, entry_signal_date := some 99
          trades := [tradeOne] } =
      .ok { position := none, entry_signal_date := some 99
            trades := [tradeOne,
              { entry_date := 2, exit_date := 4, entry_price := 50
                exit_price := 42, shares := 1, profit := -8, profit_pct := -16
                exit_reason := some "Stop Loss (Close)", holding_days := 2 }] } := by
  have h := C2_stop_loss_amended wtAlways dfStopHit 3
    { position := some posStop, entry_signal_date := some 99
      trades := [tradeOne] } posStop rfl (by decide)
  rw [h]
  rfl

lemma check_exit_default_reason (c : Row) (q : Position) (r : Option String)
    (h : check_exit_condition defaultRules c q = .ok (true, r)) :
    r = some "MA_short Cross Exit" := by
  rw [check_exit_default_eq] at h
  split at h
  · exact absurd h (by simp)
  · split at h
    · exact ((Prod.mk.injEq _ _ _ _).mp (Except.ok.inj h)).2.symm
    · exact absurd ((Prod.mk.injEq _ _ _ _).mp (Except.ok.inj h)).1.symm
        (by simp)

/-- A step either leaves the trade list unchanged or appends exactly one
trade whose exit reason was produced by `check_exit_condition`. -/
lemma stepBar_trades (rules : TradingRules) (wt : Int → Bool) (df : List Row)
    (i : ℕ) (st st' : BTState)
    (h : stepBar rules wt df i st = .ok st') :
    st'.trades = st.trades ∨
    ∃ t, st'.trades = st.trades ++ [t] ∧
      ∃ c q, check_exit_condition rules c q = .ok (true, t.exit_reason) := by
  unfold stepBar at h
  cases hp : st.position with
  | none =>
    rw [hp] at h
    dsimp only at h
    left
    split_ifs at h <;> (cases Except.ok.inj h; rfl)
  | some p =>
    rw [hp] at h
    dsimp only at h
    cases hce : check_exit_condition rules (df.getD i dRow) p with
    | error e => rw [hce] at h; exact absurd h (by simp)
    | ok pr =>
      obtain ⟨se, r⟩ := pr
      rw [hce] at h
      dsimp only at h
      split at h
      · rename_i hse
        cases Except.ok.inj h
        right
        refine ⟨_, rfl, df.getD i dRow, p, ?_⟩
        rw [hce, hse]
      · cases Except.ok.inj h
        exact Or.inl rfl

/-- Exit reasons of all trades recorded by the loop come from
`check_exit_condition`. -/
lemma generateSignalsAux_reasons (rules : TradingRules) (wt : Int → Bool)
    (df : List Row) :
    ∀ (n i : ℕ) (st final : BTState),
      generateSignalsAux rules wt df n i st = .ok final →
      ∀ t ∈ final.trades, t ∈ st.trades ∨
        ∃ c q, check_exit_condition rules c q = .ok (true, t.exit_reason) := by
  intro n
  induction n with
  | zero =>
    intro i st final h t ht
    cases Except.ok.inj h
    exact Or.inl ht
  | succ n ih =>
    intro i st final h t ht
    unfold generateSignalsAux at h
    cases hs : stepBar rules wt df i st with
    | error e => rw [hs] at h; exact absurd h (by simp)
    | ok st' =>
      rw [hs] at h
      dsimp only at h
      rcases ih (i + 1) st' final h t ht with hin | hex
      · rcases stepBar_trades rules wt df i st st' hs with heq | ⟨t0, heq, c, q, hr⟩
        · exact Or.inl (heq ▸ hin)
        · rw [heq] at hin
          rcases List.mem_append.mp hin with h1 | h2
          · exact Or.inl h1
          · right
            exact ⟨c, q, (List.mem_singleton.mp h2) ▸ hr⟩
      · exact Or.inr hex

/-- C3: under a freshly constructed (default) `TradingRules`, any bar whose
close is at or below the current bar's `Recent_Low × stop_loss_percentage`
makes `check_exit_condition` read the never-assigned attribute
`hold_if_ma5_uptrend` and raise AttributeError; consequently a successful
default-rules run records only `MA_short Cross Exit` trades — never a
Stop Loss one. -/
theorem C3_attribute_error :
    (∀ (c : Row) (q : Position),
        oleq (some c.Close)
          (omul c.Recent_Low defaultRules.stop_loss_percentage) = true →
        check_exit_condition defaultRules c q = .error ())
    ∧ ∀ (wt : Int → Bool) (df : List Row) (trades : List Trade),
        generate_signals defaultRules wt df [] = .ok trades →
        ∀ t ∈ trades, t.exit_reason = some "MA_short Cross Exit" := by
  constructor
  · intro c q h
    rw [check_exit_default_eq, if_pos h]
  · intro wt df trades h t ht
    unfold generate_signals at h
    cases hax : generateSignalsAux defaultRules wt df (df.length - 1) 1
        { position := none, entry_signal_date := none, trades := [] } with
    | error e => rw [hax] at h; exact absurd h (by simp)
    | ok stf =>
      rw [hax] at h
      have heq := Except.ok.inj h
      subst heq
      rcases generateSignalsAux_reasons defaultRules wt df (df.length - 1) 1
          _ stf hax t ht with hin | ⟨c, q, hr⟩
      · exact absurd hin (List.not_mem_nil t)
      · exact check_exit_default_reason c q t.exit_reason hr

unseal Rat.mul Rat.inv Rat.add Rat.sub in
/-- C3 witness: the AttributeError fact at a concrete stop-hit bar, and
the only-MACross-reasons fact on the concrete one-trade run. -/
theorem C3_attribute_error_witness :
    check_exit_condition defaultRules rowStopHit posStop = .error ()
    ∧ tradeOne.exit_reason = some "MA_short Cross Exit" :=
  ⟨C3_attribute_error.1 rowStopHit posStop (by decide),
   C3_attribute_error.2 wtAlways dfOneTrade [tradeOne] (by rfl) tradeOne
     (List.mem_singleton.mpr rfl)⟩

/-! ## C10: generate_signals accumulates trades -/

/-- A step's behaviour does not depend on the trades already recorded; it
only appends to them. -/
lemma stepBar_frame (rules : TradingRules) (wt : Int → Bool) (df : List Row)
    (i : ℕ) (pos : Option Position) (esd : Option Int) (ts : List Trade) :
    stepBar rules wt df i { position := pos, entry_signal_date := esd, trades := ts } =
      (stepBar rules wt df i { position := pos, entry_signal_date := esd, trades := [] }).map
        (fun s => { position := s.position, entry_signal_date := s.entry_signal_date
                    trades := ts ++ s.trades }) := by
  unfold stepBar
  cases pos with
  | none =>
    dsimp only
    split_ifs <;> simp [Except.map]
  | some p =>
    dsimp only
    cases hce : check_exit_condition rules (df.getD i dRow) p with
    | error e => simp [Except.map]
    | ok pr =>
      obtain ⟨se, r⟩ := pr
      dsimp only
      split_ifs <;> simp [Except.map]

/-- The loop's behaviour does not depend on the already-recorded trades. -/
lemma generateSignalsAux_frame (rules : TradingRules) (wt : Int → Bool)
    (df : List Row) :
    ∀ (n i : ℕ) (pos : Option Position) (esd : Option Int) (ts : List Trade),
      generateSignalsAux rules wt df n i
          { position := pos, entry_signal_date := esd, trades := ts } =
        (generateSignalsAux rules wt df n i
            { position := pos, entry_signal_date := esd, trades := [] }).map
          (fun s => { position := s.position
                      entry_signal_date := s.entry_signal_date
                      trades := ts ++ s.trades }) := by
  intro n
  induction n with
  | zero => intro i pos esd ts; simp [generateSignalsAux, Except.map]
  | succ n ih =>
    intro i pos esd ts
    unfold generateSignalsAux
    rw [stepBar_frame]
    cases hs : stepBar rules wt df i
        { position := pos, entry_signal_date := esd, trades := [] } with
    | error e => simp [Except.map]
    | ok s =>
      dsimp [Except.map]
      rw [ih (i + 1) s.position s.entry_signal_date (ts ++ s.trades),
          ih (i + 1) s.position s.entry_signal_date s.trades]
      cases hax : generateSignalsAux rules wt df n (i + 1)
          { position := s.position, entry_signal_date := s.entry_signal_date
            trades := [] } with
      | error e => simp [Except.map]
      | ok f => simp [Except.map, List.append_assoc]

/-- C10: `generate_signals` appends to the trades already stored on the
object without resetting them, so a second pass over the same data yields
the concatenation of the two passes' trade lists — not the single-run
list — and `calculate_performance` then aggregates the duplicated trades
(`total_trades` doubles). -/
theorem C10_trades_concat (rules : TradingRules) (wt : Int → Bool)
    (df : List Row) (T : List Trade)
    (h : generate_signals rules wt df [] = .ok T) :
    generate_signals rules wt df T = .ok (T ++ T)
    ∧ (T ≠ [] → T ++ T ≠ T)
    ∧ (T ≠ [] → (calculate_performance (T ++ T)).map (·.total_trades) =
        some (2 * T.length)) := by
  unfold generate_signals at h ⊢
  rw [generateSignalsAux_frame] at h ⊢
  generalize hax : generateSignalsAux rules wt df (df.length - 1) 1
      { position := none, entry_signal_date := none, trades := [] } = res at h ⊢
  cases res with
  | error e =>
    exact absurd h (by simp [Except.map])
  | ok s =>
    simp only [Except.map, List.nil_append] at h ⊢
    have hT : s.trades = T := Except.ok.inj h
    subst hT
    refine ⟨rfl, ?_, ?_⟩
    · intro hne heq
      have hlen := congrArg List.length heq
      rw [List.length_append] at hlen
      have : s.trades.length = 0 := by omega
      exact hne (List.length_eq_zero.mp this)
    · intro hne
      unfold calculate_performance
      rw [if_neg (by
        simp only [List.length_append]
        intro hz
        exact hne (List.length_eq_zero.mp (by omega)))]
      simp [List.length_append, Nat.two_mul]

unseal Rat.mul Rat.inv Rat.add Rat.sub in
/-- C10 witness: a second pass of `generate_signals` over `dfOneTrade`
starting from the first pass's trade list yields the trade twice. -/
theorem C10_trades_concat_witness :
    generate_signals defaultRules wtAlways dfOneTrade [tradeOne] =
      .ok [tradeOne, tradeOne] := by
  have h := (C10_trades_concat defaultRules wtAlways dfOneTrade [tradeOne]
    (by rfl)).1
  simpa using h

/-! ## C8: position/trade-interval invariants -/

lemma datesMono_le {df : List Row} (hm : DatesMono df) {a b : ℕ}
    (hab : a ≤ b) (hb : b < df.length) :
    (df.getD a dRow).date ≤ (df.getD b dRow).date := by
  rcases Nat.eq_or_lt_of_le hab with heq | hlt
  · rw [heq]
  · exact le_of_lt (hm b hb a hlt)

lemma dUB_le_dUB {df : List Row} (hm : DatesMono df) {i : ℕ}
    (hi : i < df.length) : dUB df i ≤ dUB df (i + 1) := by
  apply datesMono_le hm
  · exact min_le_min (Nat.le_succ i) (Nat.le_refl _)
  · omega

lemma le_dUB_succ {df : List Row} (hm : DatesMono df) {a i : ℕ}
    (ha : a ≤ i) (hi : i < df.length) :
    (df.getD a dRow).date ≤ dUB df (i + 1) := by
  apply datesMono_le hm
  · omega
  · omega

/-- One step preserves the loop invariant. -/
lemma stepBar_inv (rules : TradingRules) (wt : Int → Bool) (df : List Row)
    (hm : DatesMono df) (i : ℕ) (hi1 : 1 ≤ i) (hilen : i < df.length)
    (st st' : BTState) (hInv : LoopInv df i st)
    (h : stepBar rules wt df i st = .ok st') : LoopInv df (i + 1) st' := by
  obtain ⟨hchain, hrest⟩ := hInv
  unfold stepBar at h
  cases hp : st.position with
  | none =>
    rw [hp] at h
    dsimp only at h
    simp only [hp] at hrest
    cases hesd : st.entry_signal_date with
    | some d =>
      simp only [hesd] at hrest
      obtain ⟨hd, hbound⟩ := hrest
      rw [hesd, if_pos (by rw [hd])] at h
      cases Except.ok.inj h
      refine ⟨hchain, rfl, ?_, ?_⟩
      · simp [Nat.add_sub_cancel]
      · intro t ht
        calc t.exit_date ≤ d := hbound t ht
          _ = (df.getD (i - 1) dRow).date := hd
          _ ≤ (df.getD i dRow).date := le_of_lt (hm i hilen (i - 1) (by omega))
    | none =>
      simp only [hesd] at hrest
      rw [hesd, if_neg (by simp)] at h
      have hkeep : LoopInv df (i + 1) st := by
        refine ⟨hchain, ?_⟩
        simp only [hp, hesd]
        intro t ht
        exact le_trans (hrest t ht) (dUB_le_dUB hm hilen)
      split_ifs at h <;> cases Except.ok.inj h
      all_goals first
        | exact hkeep
        | (refine ⟨hchain, ?_⟩
           simp only [hp]
           refine ⟨by simp [Nat.add_sub_cancel], ?_⟩
           intro t ht
           have hx := hrest t ht
           unfold dUB at hx
           rwa [Nat.min_eq_left (by omega)] at hx)
  | some p =>
    rw [hp] at h
    dsimp only at h
    simp only [hp] at hrest
    obtain ⟨hesd, hentry, hbound⟩ := hrest
    cases hce : check_exit_condition rules (df.getD i dRow) p with
    | error e => rw [hce] at h; exact absurd h (by simp)
    | ok pr =>
      obtain ⟨se, r⟩ := pr
      rw [hce] at h
      dsimp only at h
      by_cases hse : se = true
      · rw [if_pos hse] at h
        by_cases hed : rules.exit_timing = "next_open" ∧ i + 1 < df.length
        · rw [if_pos hed] at h
          cases Except.ok.inj h
          have hEgt : (df.getD (i - 1) dRow).date < (df.getD (i + 1) dRow).date :=
            hm (i + 1) hed.2 (i - 1) (by omega)
          refine ⟨⟨?_, ?_⟩, ?_⟩
          · rw [List.pairwise_append]
            refine ⟨hchain.1, List.pairwise_singleton _ _, ?_⟩
            intro a ha b hb
            rw [List.mem_singleton.mp hb]
            exact hbound a ha
          · intro t ht
            rcases List.mem_append.mp ht with h1 | h2
            · exact hchain.2 t h1
            · rw [List.mem_singleton.mp h2]
              exact lt_of_le_of_lt hentry hEgt
          · simp only [hesd]
            intro t ht
            rcases List.mem_append.mp ht with h1 | h2
            · exact le_trans (hbound t h1)
                (le_trans hentry (le_dUB_succ hm (by omega) hilen))
            · rw [List.mem_singleton.mp h2]
              show (df.getD (i + 1) dRow).date ≤ dUB df (i + 1)
              unfold dUB
              rw [Nat.min_eq_left (by omega)]
        · rw [if_neg hed] at h
          cases Except.ok.inj h
          have hEgt : (df.getD (i - 1) dRow).date < (df.getD i dRow).date :=
            hm i hilen (i - 1) (by omega)
          refine ⟨⟨?_, ?_⟩, ?_⟩
          · rw [List.pairwise_append]
            refine ⟨hchain.1, List.pairwise_singleton _ _, ?_⟩
            intro a ha b hb
            rw [List.mem_singleton.mp hb]
            exact hbound a ha
          · intro t ht
            rcases List.mem_append.mp ht with h1 | h2
            · exact hchain.2 t h1
            · rw [List.mem_singleton.mp h2]
              exact lt_of_le_of_lt hentry hEgt
          · simp only [hesd]
            intro t ht
            rcases List.mem_append.mp ht with h1 | h2
            · exact le_trans (hbound t h1)
                (le_trans hentry (le_dUB_succ hm (by omega) hilen))
            · rw [List.mem_singleton.mp h2]
              exact le_dUB_succ hm (by omega) hilen
      · rw [if_neg hse] at h
        cases Except.ok.inj h
        refine ⟨hchain, ?_⟩
        simp only [hp]
        simp only [Nat.add_sub_cancel]
        refine ⟨hesd, ?_, hbound⟩
        exact le_trans hentry (datesMono_le hm (by omega) hilen)

/-- Projection of the invariant to the facts that survive the run. -/
lemma loopInv_good {df : List Row} {i : ℕ} {st : BTState}
    (hInv : LoopInv df i st) :
    TradesChain st.trades ∧
      ∀ p, st.position = some p → ∀ t ∈ st.trades, t.exit_date ≤ p.entry_date := by
  obtain ⟨hchain, hrest⟩ := hInv
  refine ⟨hchain, ?_⟩
  intro p hp t ht
  simp only [hp] at hrest
  exact hrest.2.2 t ht

/-- Running the loop from an invariant state yields a final state whose
trades are chronologically disjoint and all closed before any position
still open at the end was entered. -/
lemma generateSignalsAux_inv (rules : TradingRules) (wt : Int → Bool)
    (df : List Row) (hm : DatesMono df) :
    ∀ (n i : ℕ) (st final : BTState), n + i = df.length → 1 ≤ i →
      LoopInv df i st →
      generateSignalsAux rules wt df n i st = .ok final →
      TradesChain final.trades ∧
        ∀ p, final.position = some p →
          ∀ t ∈ final.trades, t.exit_date ≤ p.entry_date := by
  intro n
  induction n with
  | zero =>
    intro i st final _ _ hInv h
    cases Except.ok.inj h
    exact loopInv_good hInv
  | succ n ih =>
    intro i st final hn hi1 hInv h
    unfold generateSignalsAux at h
    cases hs : stepBar rules wt df i st with
    | error e => rw [hs] at h; exact absurd h (by simp)
    | ok st' =>
      rw [hs] at h
      dsimp only at h
      exact ih (i + 1) st' final (by omega) (by omega)
        (stepBar_inv rules wt df hm i hi1 (by omega) st st' hInv hs) h

/-- C8: in any single run, `generate_signals` starts from a fresh state
with at most one position slot; a step taken while a position is open
never changes the pending-entry flag, a step taken while a pending entry
is outstanding consumes it into the opened position (never re-sets it),
and over the recorded trade list no two trades' `[entry_date, exit_date)`
intervals overlap (each trade exits no later than the next entry, and
entries strictly precede their exits). -/
theorem C8_no_overlap (rules : TradingRules) (wt : Int → Bool)
    (df : List Row) (trades : List Trade) (hm : DatesMono df)
    (h : generate_signals rules wt df [] = .ok trades) :
    (trades.Pairwise (fun a b => a.exit_date ≤ b.entry_date)
      ∧ ∀ t ∈ trades, t.entry_date < t.exit_date)
    ∧ (∀ (i : ℕ) (st st' : BTState) (p : Position), st.position = some p →
        stepBar rules wt df i st = .ok st' →
        st'.entry_signal_date = st.entry_signal_date)
    ∧ (∀ (i : ℕ) (st st' : BTState), st.position = none →
        st.entry_signal_date = some ((df.getD (i - 1) dRow).date) →
        stepBar rules wt df i st = .ok st' →
        st'.entry_signal_date = none ∧ st'.position.isSome = true) := by
  refine ⟨?_, ?_, ?_⟩
  · unfold generate_signals at h
    generalize hax : generateSignalsAux rules wt df (df.length - 1) 1
        { position := none, entry_signal_date := none, trades := [] } = res at h
    cases res with
    | error e => exact absurd h (by simp)
    | ok s =>
      have hT : s.trades = trades := Except.ok.inj h
      subst hT
      rcases Nat.eq_zero_or_pos df.length with hlen | hlen
      · rw [hlen] at hax
        simp only [generateSignalsAux] at hax
        cases Except.ok.inj hax
        exact ⟨List.Pairwise.nil, by simp⟩
      · have := generateSignalsAux_inv rules wt df hm (df.length - 1) 1
          { position := none, entry_signal_date := none, trades := [] } s
          (by omega) (by omega)
          ⟨⟨List.Pairwise.nil, by simp⟩, by simp⟩ hax
        exact this.1
  · intro i st st' p hp hs
    unfold stepBar at hs
    rw [hp] at hs
    dsimp only at hs
    cases hce : check_exit_condition rules (df.getD i dRow) p with
    | error e => rw [hce] at hs; exact absurd hs (by simp)
    | ok pr =>
      obtain ⟨se, r⟩ := pr
      rw [hce] at hs
      dsimp only at hs
      split_ifs at hs <;> cases Except.ok.inj hs <;> rfl
  · intro i st st' hp hesd hs
    unfold stepBar at hs
    rw [hp] at hs
    dsimp only at hs
    rw [hesd, if_pos rfl] at hs
    cases Except.ok.inj hs
    exact ⟨rfl, rfl⟩

unseal Rat.mul Rat.inv Rat.add Rat.sub in
/-- C8 witness: the interval facts applied to the concrete one-trade run
on `dfOneTrade`. -/
theorem C8_no_overlap_witness : tradeOne.entry_date < tradeOne.exit_date :=
  (C8_no_overlap defaultRules wtAlways dfOneTrade [tradeOne]
    (by unfold DatesMono; decide) (by rfl)).1.2 tradeOne
    (List.mem_singleton.mpr rfl)

/-! ## C4: end-of-data handling -/

unseal Rat.mul Rat.inv Rat.add Rat.sub in
/-- C4 counterexample: on `dfOpenEnd` the loop ends with the position
opened on bar 2 still held, and `generate_signals` returns an empty trade
list — no force-close, no trade with reason `Time Out`. -/
theorem C4_no_timeout_counterexample :
    generateSignalsAux defaultRules wtAlways dfOpenEnd (dfOpenEnd.length - 1) 1
        { position := none, entry_signal_date := none, trades := [] } =
      .ok { position := some { entry_date := 2, entry_price := 50
                               stop_loss := some (49/50), shares := 1 }
            entry_signal_date := none, trades := [] }
    ∧ generate_signals defaultRules wtAlways dfOpenEnd [] = .ok [] :=
  ⟨by rfl, by rfl⟩

set_option maxHeartbeats 2000000 in
/-- Every exit reason `check_exit_condition` can produce with
`should_exit = true`, over all rule configurations. -/
lemma check_exit_reasons (rules : TradingRules) (c : Row) (q : Position)
    (r : Option String)
    (h : check_exit_condition rules c q = .ok (true, r)) :
    r = some "Stop Loss (Close)" ∨ r = some "Stop Loss (Percentage)"
    ∨ r = some "MA_short Cross Exit"
    ∨ (∃ ty, r = some ("MA_short Exit (" ++ ty ++ ")"))
    ∨ r = some "Take Profit" := by
  unfold check_exit_condition check_exit_condition.checkExitRest at h
  dsimp only at h
  repeat' split at h
  all_goals first
    | exact Except.noConfusion h
    | (obtain ⟨hb, hr⟩ := (Prod.mk.injEq _ _ _ _).mp (Except.ok.inj h)
       first
        | exact Bool.noConfusion hb
        | exact Or.inl hr.symm
        | exact Or.inr (Or.inl hr.symm)
        | exact Or.inr (Or.inr (Or.inl hr.symm))
        | exact Or.inr (Or.inr (Or.inr (Or.inl ⟨_, hr.symm⟩)))
        | exact Or.inr (Or.inr (Or.inr (Or.inr hr.symm))))

lemma check_exit_reason_ne_timeout (rules : TradingRules) (c : Row)
    (q : Position) (r : Option String)
    (h : check_exit_condition rules c q = .ok (true, r)) :
    r ≠ some "Time Out" := by
  rcases check_exit_reasons rules c q r h with hr | hr | hr | ⟨ty, hr⟩ | hr <;>
    subst hr
  · decide
  · decide
  · decide
  · intro heq
    have hlen := congrArg String.length (Option.some.inj heq)
    rw [String.length_append, String.length_append] at hlen
    have h1 : "MA_short Exit (".length = 15 := rfl
    have h2 : ")".length = 1 := rfl
    have h3 : "Time Out".length = 8 := rfl
    omega
  · decide

/-- C4 (amended): a position still open when the bar series ends is simply
discarded: `generate_signals` returns exactly the trades of the exits that
fired, no recorded trade carries a `Time Out` exit reason (the engine has
no such exit), and no trade of the returned list stems from the still-open
position (its entry date matches no recorded trade). -/
theorem C4_open_position_dropped (rules : TradingRules) (wt : Int → Bool)
    (df : List Row) (final : BTState) (hm : DatesMono df)
    (hax : generateSignalsAux rules wt df (df.length - 1) 1
        { position := none, entry_signal_date := none, trades := [] } =
      .ok final) :
    generate_signals rules wt df [] = .ok final.trades
    ∧ (∀ t ∈ final.trades, t.exit_reason ≠ some "Time Out")
    ∧ ∀ p, final.position = some p →
        ∀ t ∈ final.trades, t.entry_date ≠ p.entry_date := by
  refine ⟨?_, ?_, ?_⟩
  · unfold generate_signals
    rw [hax]
  · intro t ht
    rcases generateSignalsAux_reasons rules wt df (df.length - 1) 1
        _ final hax t ht with hin | ⟨c, q, hr⟩
    · exact absurd hin (List.not_mem_nil t)
    · exact check_exit_reason_ne_timeout rules c q t.exit_reason hr
  · intro p hp t ht
    rcases Nat.eq_zero_or_pos df.length with hlen | hlen
    · rw [hlen] at hax
      simp only [generateSignalsAux] at hax
      cases Except.ok.inj hax
      exact absurd ht (List.not_mem_nil t)
    · have hgood := generateSignalsAux_inv rules wt df hm (df.length - 1) 1
        { position := none, entry_signal_date := none, trades := [] } final
        (by omega) (by omega)
        ⟨⟨List.Pairwise.nil, by simp⟩, by simp⟩ hax
      have h1 := hgood.1.2 t ht
      have h2 := hgood.2 p hp t ht
      omega

unseal Rat.mul Rat.inv Rat.add Rat.sub in
/-- C4 witness: the amended end-of-data behaviour applied to `dfOpenEnd`,
whose run ends with an open position and an empty trade list. -/
theorem C4_open_position_dropped_witness :
    generate_signals defaultRules wtAlways dfOpenEnd [] =
      .ok (BTState.trades
        { position := some { entry_date := 2, entry_price := 50
                             stop_loss := some (49/50), shares := 1 }
          entry_signal_date := none, trades := [] }) :=
  (C4_open_position_dropped defaultRules wtAlways dfOpenEnd
    { position := some { entry_date := 2, entry_price := 50
                         stop_loss := some (49/50), shares := 1 }
      entry_signal_date := none, trades := [] }
    (by unfold DatesMono; decide) (by rfl)).1

/-! ## C5: screening engine -/

lemma keyGT_asymm {a b : ScreeningRow} (h : keyGT a b = true) :
    keyGT b a = false := by
  unfold keyGT at h ⊢
  cases ha : a.All_Signal <;> cases hb : b.All_Signal <;> simp_all <;>
    exact le_of_lt h

lemma keyGT_neg_trans {x y b : ScreeningRow} (h1 : keyGT b y = false)
    (h2 : keyGT y x = false) : keyGT b x = false := by
  unfold keyGT at h1 h2 ⊢
  cases hb : b.All_Signal <;> cases hy : y.All_Signal <;>
    cases hx : x.All_Signal <;> simp_all <;> exact le_trans h1 h2

lemma keyGT_ne_key {a b : ScreeningRow} (h : keyGT a b = true) :
    rowKey a ≠ rowKey b := by
  intro heq
  obtain ⟨h1, h2⟩ := Prod.mk.injEq _ _ _ _ ▸ heq
  unfold keyGT at h
  rw [h1, h2] at h
  simp at h

lemma mem_insertRow {x b : ScreeningRow} {l : List ScreeningRow} :
    b ∈ insertRow x l ↔ b = x ∨ b ∈ l := by
  induction l with
  | nil => simp [insertRow]
  | cons y ys ih =>
    unfold insertRow
    by_cases hk : keyGT y x = true
    · rw [if_pos hk]
      simp [ih]
      try tauto
    · rw [if_neg hk]
      simp [List.mem_cons]

lemma insertRow_perm (x : ScreeningRow) (l : List ScreeningRow) :
    (insertRow x l).Perm (x :: l) := by
  induction l with
  | nil => exact List.Perm.refl _
  | cons y ys ih =>
    unfold insertRow
    by_cases hk : keyGT y x = true
    · rw [if_pos hk]
      exact (ih.cons y).trans (List.Perm.swap x y ys)
    · rw [if_neg hk]

lemma sortDesc_perm (l : List ScreeningRow) : (sortDesc l).Perm l := by
  induction l with
  | nil => exact List.Perm.refl _
  | cons x xs ih =>
    exact (insertRow_perm x (sortDesc xs)).trans (ih.cons x)

lemma pairwise_insertRow (x : ScreeningRow) (l : List ScreeningRow)
    (hl : l.Pairwise (fun a b => keyGT b a = false)) :
    (insertRow x l).Pairwise (fun a b => keyGT b a = false) := by
  induction l with
  | nil => simp [insertRow]
  | cons y ys ih =>
    rw [List.pairwise_cons] at hl
    obtain ⟨hy, hys⟩ := hl
    unfold insertRow
    by_cases hk : keyGT y x = true
    · rw [if_pos hk]
      rw [List.pairwise_cons]
      refine ⟨?_, ih hys⟩
      intro b hb
      rcases mem_insertRow.mp hb with rfl | hby
      · exact keyGT_asymm hk
      · exact hy b hby
    · rw [if_neg hk]
      rw [List.pairwise_cons]
      have hkf : keyGT y x = false := Bool.not_eq_true _ ▸ hk
      refine ⟨?_, List.pairwise_cons.mpr ⟨hy, hys⟩⟩
      intro b hb
      rcases List.mem_cons.mp hb with rfl | hby
      · exact hkf
      · exact keyGT_neg_trans (hy b hby) hkf

lemma sortDesc_sorted (l : List ScreeningRow) :
    (sortDesc l).Pairwise (fun a b => keyGT b a = false) := by
  induction l with
  | nil => exact List.Pairwise.nil
  | cons x xs ih => exact pairwise_insertRow x (sortDesc xs) ih

lemma filter_insertRow_pos (x : ScreeningRow) (l : List ScreeningRow)
    (p : ScreeningRow → Bool) (hp : ∀ y, keyGT y x = true → p y = false)
    (hx : p x = true) :
    (insertRow x l).filter p = x :: l.filter p := by
  induction l with
  | nil => simp [insertRow, hx]
  | cons y ys ih =>
    unfold insertRow
    by_cases hk : keyGT y x = true
    · rw [if_pos hk]
      simp [List.filter_cons, hp y hk, ih]
    · rw [if_neg hk]
      simp [List.filter_cons, hx]

lemma filter_insertRow_neg (x : ScreeningRow) (l : List ScreeningRow)
    (p : ScreeningRow → Bool) (hx : p x = false) :
    (insertRow x l).filter p = l.filter p := by
  induction l with
  | nil => simp [insertRow, hx]
  | cons y ys ih =>
    unfold insertRow
    by_cases hk : keyGT y x = true
    · rw [if_pos hk]
      simp [List.filter_cons, ih]
    · rw [if_neg hk]
      simp [List.filter_cons, hx]

lemma sortDesc_stable (l : List ScreeningRow) (k : Bool × ℚ) :
    (sortDesc l).filter (fun r => decide (rowKey r = k)) =
      l.filter (fun r => decide (rowKey r = k)) := by
  induction l with
  | nil => rfl
  | cons x xs ih =>
    show (insertRow x (sortDesc xs)).filter _ = _
    by_cases hx : (decide (rowKey x = k)) = true
    · rw [filter_insertRow_pos x (sortDesc xs) _ ?_ hx]
      · rw [ih]
        simp [List.filter_cons, hx]
      · intro y hy
        have hne := keyGT_ne_key hy
        have hxk : rowKey x = k := of_decide_eq_true hx
        simp only [decide_eq_false_iff_not]
        rw [hxk] at hne
        exact hne
    · have hxf : (decide (rowKey x = k)) = false := Bool.not_eq_true _ ▸ hx
      rw [filter_insertRow_neg x (sortDesc xs) _ hxf]
      rw [ih]
      simp [List.filter_cons, hxf]

lemma keyGT_false_elim {a b : ScreeningRow} (h : keyGT b a = false) :
    b.All_Signal ≤ a.All_Signal
    ∧ (a.All_Signal = b.All_Signal → b.Slope_MA20 ≤ a.Slope_MA20) := by
  unfold keyGT at h
  cases ha : a.All_Signal <;> cases hb : b.All_Signal <;> simp_all

lemma screenOne_data_none (item : StockItem) (h : item.data = none) :
    screenOne item = none := by
  unfold screenOne
  rw [h]

lemma screenOne_ma60_none (item : StockItem) (d : TickerLatest)
    (hd : item.data = some d) (h60 : d.ma60 = none) :
    screenOne item = none := by
  unfold screenOne
  rw [hd]
  dsimp only
  rw [h60]

lemma screenOne_isSome (item : StockItem) :
    (screenOne item).isSome = true ↔
      ∃ d s, item.data = some d ∧ d.ma60.isSome = true ∧
        d.slope = some s ∧ SLOPE_THRESHOLD ≤ s := by
  constructor
  · intro h
    unfold screenOne at h
    cases hd : item.data with
    | none => rw [hd] at h; simp at h
    | some d =>
      rw [hd] at h
      dsimp only at h
      cases h60 : d.ma60 with
      | none => rw [h60] at h; simp at h
      | some m60 =>
        rw [h60] at h
        dsimp only at h
        split at h
        · rename_i hc1
          cases hs : d.slope with
          | none => rw [hs] at hc1; simp [ogeq] at hc1
          | some s =>
            refine ⟨d, s, rfl, by rw [h60]; rfl, hs, ?_⟩
            rw [hs] at hc1
            simpa [ogeq] using hc1
        · simp at h
  · rintro ⟨d, s, hd, h60, hs, hθ⟩
    unfold screenOne
    rw [hd]
    dsimp only
    cases h60' : d.ma60 with
    | none => rw [h60'] at h60; simp at h60
    | some m60 =>
      dsimp only
      rw [if_pos (show ogeq d.slope (some SLOPE_THRESHOLD) = true by
        rw [hs]; simpa [ogeq] using hθ)]
      rfl

/-- C5: screening skips tickers with undefined latest MA60 and tickers
whose evaluation raised (only those, never aborting the run); exactly the
C1-true tickers (slope ≥ threshold) produce rows even when C2–C4 fail;
the result is a permutation of the loop's rows sorted by all_signal
descending then slope descending; and ties keep the original (pre-sort)
order — the sort is stable. -/
theorem C5_screening (l : List StockItem) :
    (∀ (item : StockItem) (d : TickerLatest), item.data = some d →
        d.ma60 = none → screenOne item = none)
    ∧ (∀ item : StockItem, item.data = none → screenOne item = none)
    ∧ (∀ (pre post : List StockItem) (bad : StockItem), bad.data = none →
        screenRows (pre ++ bad :: post) = screenRows (pre ++ post))
    ∧ (∀ item : StockItem, (screenOne item).isSome = true ↔
        ∃ d s, item.data = some d ∧ d.ma60.isSome = true ∧
          d.slope = some s ∧ SLOPE_THRESHOLD ≤ s)
    ∧ (get_data_and_screen_advanced l).Perm (screenRows l)
    ∧ screenRows l = l.filterMap screenOne
    ∧ (get_data_and_screen_advanced l).Pairwise
        (fun a b => b.All_Signal ≤ a.All_Signal
          ∧ (a.All_Signal = b.All_Signal → b.Slope_MA20 ≤ a.Slope_MA20))
    ∧ ∀ k : Bool × ℚ,
        (get_data_and_screen_advanced l).filter
            (fun r => decide (rowKey r = k)) =
          (screenRows l).filter (fun r => decide (rowKey r = k)) := by
  refine ⟨screenOne_ma60_none, screenOne_data_none, ?_, screenOne_isSome,
    sortDesc_perm _, rfl, ?_, ?_⟩
  · intro pre post bad hbad
    unfold screenRows
    rw [List.filterMap_append, List.filterMap_append,
      List.filterMap_cons_none (screenOne_data_none bad hbad)]
  · exact (sortDesc_sorted _).imp (fun h => keyGT_false_elim h)
  · intro k
    exact sortDesc_stable _ k

unseal Rat.mul Rat.inv Rat.add Rat.sub in
/-- C5 witness: the insufficient-history skip applied to a concrete ticker
whose latest MA60 is undefined. -/
theorem C5_screening_witness :
    screenOne { code := "7203.T", name := "Toyota"
                data := some { close := some 100, ma7 := some 99
                               ma20 := some 98, ma60 := none
                               slope := some 2 } } = none :=
  (C5_screening []).1
    { code := "7203.T", name := "Toyota"
      data := some { close := some 100, ma7 := some 99, ma20 := some 98
                     ma60 := none, slope := some 2 } }
    { close := some 100, ma7 := some 99, ma20 := some 98, ma60 := none
      slope := some 2 } rfl rfl
